import Mathlib

/-!
# Verification of the latency-topology-visualizer data pipeline

Shallow embedding of the latency-data acquisition and topology-synthesis
pipeline of `src/hooks/useLatencyData.ts` (final revision) and
`src/lib/mockApi.ts`, together with proofs of the spec's claims about it.

Modelling conventions:
* JS numbers that arise as `parseFloat` results are modelled as `Option ℚ`,
  where `none` stands for `NaN` (a non-numeric input string) and `some q`
  for the finite rational value `q`.  `x || 0` on such a value is `jsOrZero`;
  `x < c` (which is `false` when `x` is `NaN`) is `jsLt`.
* Timestamps are `Int` (milliseconds).  `Date.now()` and
  `new Date(s).getTime()` are passed in as explicit parameters.
* A network fetch together with its shape validation is modelled as a
  function from the location code to `Except String payload`: `.error`
  covers both a non-ok HTTP response and a malformed body, with the thrown
  message as payload.
-/

/-- The four quality bands of `LatencyData.quality`. -/
inductive Quality where
  | excellent
  | good
  | fair
  | poor
deriving DecidableEq, Repr

/-- JS `v || 0` for a parse result (`NaN` and `0` both map to `0`). -/
def jsOrZero : Option ℚ → ℚ
  | none => 0
  | some q => q

/-- JS `v < c` for a parse result: every comparison with `NaN` is false. -/
def jsLt (v : Option ℚ) (c : ℚ) : Bool :=
  match v with
  | none => false
  | some q => decide (q < c)

/-- `interface LatencyData` from `src/types` (`part_003`).  The optional
`packetLoss`/`jitter` fields are `Option ℚ`. -/
structure LatencyData where
  id : String
  source : String
  target : String
  latency : ℚ
  timestamp : Int
  quality : Quality
  packetLoss : Option ℚ
  jitter : Option ℚ
deriving DecidableEq, Repr

/-- `interface HistoricalLatencyData` from `src/types`. -/
structure HistoricalLatencyData where
  timestamp : Int
  latency : ℚ
  source : String
  target : String
deriving DecidableEq, Repr

/-- `interface MetricsData` from `src/types`.  The two count fields are
always set from array lengths, hence `Nat`. -/
structure MetricsData where
  totalExchanges : Nat
  activeConnections : Nat
  averageLatency : ℚ
  uptime : ℚ
  lastUpdated : Int
deriving DecidableEq, Repr

/-- An entry of the module-level `LOCATIONS` list. -/
structure Location where
  code : String
  name : String
deriving DecidableEq, Repr

/-- The fixed `LOCATIONS` list of `useLatencyData.ts`. -/
def LOCATIONS : List Location :=
  [⟨"US", "United States"⟩, ⟨"GB", "United Kingdom"⟩, ⟨"DE", "Germany"⟩,
   ⟨"SG", "Singapore"⟩, ⟨"JP", "Japan"⟩, ⟨"IN", "India"⟩]

/-- The `summary_0` payload of a successful realtime Radar response, with
each field already taken through `parseFloat` (see module conventions). -/
structure RadarSummary where
  latencyIdle : Option ℚ
  packetLoss : Option ℚ
  jitterIdle : Option ℚ
deriving DecidableEq, Repr

/-- The record literal built for one location inside
`fetchAllRadarLatencyData` (lines 359–375 of the hook). -/
def mkRealtimeSample (code : String) (now : Int) (data : RadarSummary) : LatencyData :=
  { id := "cf-latency-" ++ code
    source := code
    target := "Cloudflare"
    latency := jsOrZero data.latencyIdle
    timestamp := now
    quality :=
      if jsLt data.latencyIdle 50 then .excellent
      else if jsLt data.latencyIdle 100 then .good
      else if jsLt data.latencyIdle 200 then .fair
      else .poor
    packetLoss := some (jsOrZero data.packetLoss)
    jitter := some (jsOrZero data.jitterIdle) }

/-- `fetchAllRadarLatencyData`: map over `LOCATIONS`, skip the hub code,
build a sample from a successful per-location fetch, swallow a failed one
(`catch { return null }`), and `filter(Boolean)` the results. -/
def fetchAllRadarLatencyData (responses : String → Except String RadarSummary)
    (now : Int) : List LatencyData :=
  LOCATIONS.filterMap (fun loc =>
    if loc.code = "Cloudflare" then none
    else
      match responses loc.code with
      | .ok data => some (mkRealtimeSample loc.code now data)
      | .error _ => none)

/-- The spec's own quality-band step function, written from the spec's
words (inclusive thresholds `≤50 / ≤100 / ≤200`), for comparison with the
code's derivation. -/
def specQualityBand (latency : ℚ) : Quality :=
  if latency ≤ 50 then .excellent
  else if latency ≤ 100 then .good
  else if latency ≤ 200 then .fair
  else .poor

/-- The code's band as a function of a successfully parsed latency value:
strict thresholds `<50 / <100 / <200`. -/
def strictQualityBand (v : ℚ) : Quality :=
  if v < 50 then .excellent
  else if v < 100 then .good
  else if v < 200 then .fair
  else .poor

/-- Helper for `jsSetDedup`: keep each element not seen before, tracking
the set of already-inserted elements. -/
def jsSetDedupAux {α : Type} [DecidableEq α] (seen : List α) : List α → List α
  | [] => []
  | a :: l =>
    if a ∈ seen then jsSetDedupAux seen l
    else a :: jsSetDedupAux (a :: seen) l

/-- `Array.from(new Set(xs))`: deduplication keeping the first occurrence
of each element, in first-occurrence order. -/
def jsSetDedup {α : Type} [DecidableEq α] (l : List α) : List α :=
  jsSetDedupAux [] l

/-- The body of the inner loop of `synthesizeRegionConnections`
(lines 582–597): look up the first hub sample of each of the two region
codes and, if both exist, build the derived region-to-region edge. -/
def mkPairEdge (latencyData : List LatencyData) (a b : String) : Option LatencyData :=
  match latencyData.find? (fun d => d.source == a),
        latencyData.find? (fun d => d.source == b) with
  | some latencyA, some latencyB =>
    some
      { id := "cf-latency-" ++ a ++ "-" ++ b
        source := a
        target := b
        latency := (latencyA.latency + latencyB.latency) / 2
        timestamp := max latencyA.timestamp latencyB.timestamp
        quality := latencyA.quality
        packetLoss := some ((jsOrZero latencyA.packetLoss + jsOrZero latencyB.packetLoss) / 2)
        jitter := some ((jsOrZero latencyA.jitter + jsOrZero latencyB.jitter) / 2) }
  | _, _ => none

/-- The double index loop `for i; for j := i+1 …` of
`synthesizeRegionConnections`: for each node, an edge to every node that
comes after it in `regionNodes`, in loop order. -/
def pairEdges (latencyData : List LatencyData) : List String → List LatencyData
  | [] => []
  | a :: rest => rest.filterMap (mkPairEdge latencyData a) ++ pairEdges latencyData rest

/-- `synthesizeRegionConnections`: dedup the source codes, synthesize one
edge per ordered index pair `i < j`, and append the derived edges to the
original star-topology samples. -/
def synthesizeRegionConnections (latencyData : List LatencyData) : List LatencyData :=
  latencyData ++ pairEdges latencyData (jsSetDedup (latencyData.map (fun d => d.source)))

/-- The (source, target) code pairs the double loop enumerates: for each
node, one pair with every later node. -/
def allPairs {α : Type} : List α → List (α × α)
  | [] => []
  | a :: rest => rest.map (fun b => (a, b)) ++ allPairs rest

example : (mkRealtimeSample "US" 0 ⟨some 50, some 0, some 0⟩).quality = .good := by decide
example : specQualityBand 50 = .excellent := by decide
example : (mkRealtimeSample "US" 0 ⟨none, some 0, some 0⟩).latency = 0 := by decide
example : (mkRealtimeSample "US" 0 ⟨none, some 0, some 0⟩).quality = .poor := by decide
example :
    (fetchAllRadarLatencyData (fun _ => .ok ⟨some 50, some 0, some 0⟩) 0).length = 6 := by
  decide

/-! ## Lemmas about `jsSetDedup`, `allPairs` and `pairEdges` -/

theorem mem_jsSetDedupAux {α : Type} [DecidableEq α] {x : α} :
    ∀ (l seen : List α), x ∈ jsSetDedupAux seen l ↔ x ∈ l ∧ x ∉ seen
  | [], seen => by simp [jsSetDedupAux]
  | a :: l, seen => by
    rw [jsSetDedupAux]
    by_cases ha : a ∈ seen
    · rw [if_pos ha, mem_jsSetDedupAux l seen]
      constructor
      · exact fun ⟨h1, h2⟩ => ⟨List.mem_cons_of_mem _ h1, h2⟩
      · rintro ⟨h1, h2⟩
        rcases List.mem_cons.1 h1 with hxa | h1
        · exact absurd (hxa ▸ ha) h2
        · exact ⟨h1, h2⟩
    · rw [if_neg ha]
      constructor
      · intro hx
        rcases List.mem_cons.1 hx with hxa | hx
        · exact ⟨hxa ▸ List.mem_cons_self _ _, hxa ▸ ha⟩
        · rcases (mem_jsSetDedupAux l (a :: seen)).1 hx with ⟨h1, h2⟩
          exact ⟨List.mem_cons_of_mem _ h1,
            fun hs => h2 (List.mem_cons_of_mem _ hs)⟩
      · rintro ⟨h1, h2⟩
        by_cases hxa : x = a
        · exact hxa ▸ List.mem_cons_self _ _
        · rcases List.mem_cons.1 h1 with hxa' | h1
          · exact absurd hxa' hxa
          · refine List.mem_cons_of_mem _ ((mem_jsSetDedupAux l (a :: seen)).2
              ⟨h1, fun hs => ?_⟩)
            rcases List.mem_cons.1 hs with hxa' | hs
            · exact hxa hxa'
            · exact h2 hs

theorem mem_jsSetDedup {α : Type} [DecidableEq α] (l : List α) (x : α) :
    x ∈ jsSetDedup l ↔ x ∈ l := by
  rw [jsSetDedup, mem_jsSetDedupAux]
  simp

theorem jsSetDedup_subset {α : Type} [DecidableEq α] (l : List α) :
    jsSetDedup l ⊆ l :=
  fun _ hx => (mem_jsSetDedup l _).1 hx

theorem jsSetDedupAux_nodup {α : Type} [DecidableEq α] :
    ∀ (l seen : List α), (jsSetDedupAux seen l).Nodup
  | [], seen => by simp [jsSetDedupAux]
  | a :: l, seen => by
    rw [jsSetDedupAux]
    by_cases ha : a ∈ seen
    · rw [if_pos ha]
      exact jsSetDedupAux_nodup l seen
    · rw [if_neg ha]
      refine List.nodup_cons.2 ⟨?_, jsSetDedupAux_nodup l (a :: seen)⟩
      intro hmem
      exact ((mem_jsSetDedupAux l (a :: seen)).1 hmem).2 (List.mem_cons_self _ _)

theorem jsSetDedup_nodup {α : Type} [DecidableEq α] (l : List α) :
    (jsSetDedup l).Nodup :=
  jsSetDedupAux_nodup l []

theorem find?_isSome_of_mem {α : Type} {p : α → Bool} {l : List α}
    (h : ∃ x ∈ l, p x) : (l.find? p).isSome = true := by
  induction l with
  | nil => simp at h
  | cons a l ih =>
    by_cases hpa : p a
    · simp [List.find?, hpa]
    · rcases h with ⟨x, hx, hpx⟩
      rcases List.mem_cons.1 hx with rfl | hx
      · exact absurd hpx (by simpa using hpa)
      · simpa [List.find?, hpa] using ih ⟨x, hx, hpx⟩

theorem mem_allPairs {α : Type} {x y : α} {l : List α}
    (h : (x, y) ∈ allPairs l) : x ∈ l ∧ y ∈ l := by
  induction l with
  | nil => simp [allPairs] at h
  | cons a l ih =>
    rw [allPairs] at h
    rcases List.mem_append.1 h with h | h
    · rcases List.mem_map.1 h with ⟨b, hb, hxy⟩
      rcases Prod.mk.injEq .. ▸ hxy with ⟨rfl, rfl⟩
      exact ⟨List.mem_cons_self _ _, List.mem_cons_of_mem _ hb⟩
    · have := ih h
      exact ⟨List.mem_cons_of_mem _ this.1, List.mem_cons_of_mem _ this.2⟩

theorem length_allPairs {α : Type} (l : List α) :
    2 * (allPairs l).length = l.length * (l.length - 1) := by
  induction l with
  | nil => simp [allPairs]
  | cons a l ih =>
    rw [allPairs]
    simp only [List.length_append, List.length_map, List.length_cons,
      Nat.add_sub_cancel]
    calc 2 * (l.length + (allPairs l).length)
        = 2 * l.length + 2 * (allPairs l).length := by ring
      _ = 2 * l.length + l.length * (l.length - 1) := by rw [ih]
      _ = (l.length + 1) * l.length := by
          cases l with
          | nil => simp
          | cons b t => simp only [List.length_cons, Nat.add_sub_cancel]; ring

theorem nodup_allPairs {α : Type} {l : List α}
    (h : l.Nodup) : (allPairs l).Nodup := by
  induction l with
  | nil => simp [allPairs]
  | cons a l ih =>
    rw [allPairs]
    rcases List.nodup_cons.1 h with ⟨ha, hl⟩
    refine List.Nodup.append ?_ (ih hl) ?_
    · exact hl.map fun b c hbc => by
        simpa using congrArg Prod.snd hbc
    · intro p hp hp'
      rcases List.mem_map.1 hp with ⟨b, _, rfl⟩
      exact ha (mem_allPairs hp').1

theorem ne_of_mem_allPairs {α : Type} {x y : α} {l : List α}
    (hnd : l.Nodup) (h : (x, y) ∈ allPairs l) : x ≠ y := by
  induction l with
  | nil => simp [allPairs] at h
  | cons a l ih =>
    rcases List.nodup_cons.1 hnd with ⟨ha, hl⟩
    rw [allPairs] at h
    rcases List.mem_append.1 h with h | h
    · rcases List.mem_map.1 h with ⟨b, hb, hxy⟩
      rcases Prod.mk.injEq .. ▸ hxy with ⟨rfl, rfl⟩
      exact fun hab => ha (hab ▸ hb)
    · exact ih hl h

theorem rev_not_mem_allPairs {α : Type} {x y : α} {l : List α}
    (hnd : l.Nodup) (h : (x, y) ∈ allPairs l) : (y, x) ∉ allPairs l := by
  induction l with
  | nil => simp [allPairs] at h
  | cons a l ih =>
    rcases List.nodup_cons.1 hnd with ⟨ha, hl⟩
    rw [allPairs] at h ⊢
    intro hrev
    rcases List.mem_append.1 h with h | h
    · rcases List.mem_map.1 h with ⟨b, hb, hxy⟩
      have hax : a = x := congrArg Prod.fst hxy
      have hby : b = y := congrArg Prod.snd hxy
      rcases List.mem_append.1 hrev with h' | h'
      · rcases List.mem_map.1 h' with ⟨c, hc, hyx⟩
        have hay : a = y := congrArg Prod.fst hyx
        exact ha ((hby.trans hay.symm) ▸ hb)
      · exact ha (hax ▸ (mem_allPairs h').2)
    · rcases List.mem_append.1 hrev with h' | h'
      · rcases List.mem_map.1 h' with ⟨c, hc, hyx⟩
        have hay : a = y := congrArg Prod.fst hyx
        exact ha (hay ▸ (mem_allPairs h).2)
      · exact ih hl h h'

theorem pair_mem_allPairs {α : Type} {x y : α} {l : List α}
    (hx : x ∈ l) (hy : y ∈ l) (hxy : x ≠ y) :
    (x, y) ∈ allPairs l ∨ (y, x) ∈ allPairs l := by
  induction l with
  | nil => simp at hx
  | cons a l ih =>
    rw [allPairs]
    rcases List.mem_cons.1 hx with hxa | hx'
    · rcases List.mem_cons.1 hy with hya | hy'
      · exact absurd (hxa.trans hya.symm) hxy
      · exact Or.inl (List.mem_append.2 (Or.inl (List.mem_map.2 ⟨y, hy', by rw [hxa]⟩)))
    · rcases List.mem_cons.1 hy with hya | hy'
      · exact Or.inr (List.mem_append.2 (Or.inl (List.mem_map.2 ⟨x, hx', by rw [hya]⟩)))
      · rcases ih hx' hy' with h | h
        · exact Or.inl (List.mem_append.2 (Or.inr h))
        · exact Or.inr (List.mem_append.2 (Or.inr h))

theorem mkPairEdge_eq {ld : List LatencyData} {a b : String} {A B : LatencyData}
    (hA : ld.find? (fun d => d.source == a) = some A)
    (hB : ld.find? (fun d => d.source == b) = some B) :
    mkPairEdge ld a b = some
      { id := "cf-latency-" ++ a ++ "-" ++ b
        source := a
        target := b
        latency := (A.latency + B.latency) / 2
        timestamp := max A.timestamp B.timestamp
        quality := A.quality
        packetLoss := some ((jsOrZero A.packetLoss + jsOrZero B.packetLoss) / 2)
        jitter := some ((jsOrZero A.jitter + jsOrZero B.jitter) / 2) } := by
  unfold mkPairEdge
  rw [hA, hB]

theorem map_source_target_filterMap {ld : List LatencyData} {a : String}
    (ha : (ld.find? (fun d => d.source == a)).isSome = true) :
    ∀ {rest : List String},
      (∀ x ∈ rest, (ld.find? (fun d => d.source == x)).isSome = true) →
      (rest.filterMap (mkPairEdge ld a)).map (fun e => (e.source, e.target))
        = rest.map (fun b => (a, b))
  | [], _ => rfl
  | b :: rest, h => by
    rcases Option.isSome_iff_exists.1 ha with ⟨A, hA⟩
    rcases Option.isSome_iff_exists.1 (h b (List.mem_cons_self _ _)) with ⟨B, hB⟩
    rw [List.filterMap_cons, mkPairEdge_eq hA hB]
    simp only [List.map_cons]
    rw [map_source_target_filterMap ha (fun x hx => h x (List.mem_cons_of_mem _ hx))]

theorem pairEdges_map_pairs {ld : List LatencyData} :
    ∀ {nodes : List String},
      (∀ x ∈ nodes, (ld.find? (fun d => d.source == x)).isSome = true) →
      (pairEdges ld nodes).map (fun e => (e.source, e.target)) = allPairs nodes
  | [], _ => rfl
  | a :: rest, h => by
    rw [pairEdges, allPairs, List.map_append]
    rw [map_source_target_filterMap (h a (List.mem_cons_self _ _))
      (fun x hx => h x (List.mem_cons_of_mem _ hx))]
    rw [pairEdges_map_pairs (fun x hx => h x (List.mem_cons_of_mem _ hx))]

theorem find?_source_isSome_of_mem_dedup {ld : List LatencyData} {x : String}
    (hx : x ∈ jsSetDedup (ld.map (fun d => d.source))) :
    (ld.find? (fun d => d.source == x)).isSome = true := by
  rcases List.mem_map.1 (jsSetDedup_subset _ hx) with ⟨d, hd, hdx⟩
  exact find?_isSome_of_mem ⟨d, hd, by simp [hdx]⟩

/-- The derived region-pair edges appended by `synthesizeRegionConnections`
(the `regionPairs` array of the source). -/
def derivedEdges (ld : List LatencyData) : List LatencyData :=
  pairEdges ld (jsSetDedup (ld.map (fun d => d.source)))

/-- The (source, target) code pair of every derived edge, in emission order. -/
def derivedEdgeCodePairs (ld : List LatencyData) : List (String × String) :=
  (derivedEdges ld).map (fun e => (e.source, e.target))

theorem derivedEdgeCodePairs_eq_allPairs (ld : List LatencyData) :
    derivedEdgeCodePairs ld = allPairs (jsSetDedup (ld.map (fun d => d.source))) :=
  pairEdges_map_pairs (fun _ hx => find?_source_isSome_of_mem_dedup hx)

/-- The three hub samples of the claim's concrete three-region scenario. -/
def c2Samples : List LatencyData :=
  [⟨"cf-latency-A", "A", "Cloudflare", 10, 0, .excellent, none, none⟩,
   ⟨"cf-latency-B", "B", "Cloudflare", 20, 0, .excellent, none, none⟩,
   ⟨"cf-latency-C", "C", "Cloudflare", 30, 0, .excellent, none, none⟩]

example : derivedEdgeCodePairs c2Samples = [("A", "B"), ("A", "C"), ("B", "C")] := by decide

/-- **C2.** For every input list of hub latency samples, with `n` the
number of distinct source region codes, the pairwise synthesis of
`synthesizeRegionConnections` appends exactly `n*(n-1)/2` derived
region-to-region edges to the input: their (source, target) code pairs are
pairwise distinct, relate distinct regions, contain no reversed duplicate,
and cover every unordered pair of distinct regions exactly once; in
particular three regions A, B, C yield exactly the edges A-B, A-C, B-C. -/
theorem pairwise_edge_synthesis_complete_nodup (ld : List LatencyData) :
    synthesizeRegionConnections ld = ld ++ derivedEdges ld
    ∧ (derivedEdges ld).length
        = (jsSetDedup (ld.map (fun d => d.source))).length
            * ((jsSetDedup (ld.map (fun d => d.source))).length - 1) / 2
    ∧ (derivedEdgeCodePairs ld).Nodup
    ∧ (∀ x y : String, (x, y) ∈ derivedEdgeCodePairs ld →
        x ≠ y ∧ (y, x) ∉ derivedEdgeCodePairs ld)
    ∧ (∀ x y : String, x ∈ ld.map (fun d => d.source) →
        y ∈ ld.map (fun d => d.source) → x ≠ y →
        (x, y) ∈ derivedEdgeCodePairs ld ∨ (y, x) ∈ derivedEdgeCodePairs ld)
    ∧ derivedEdgeCodePairs c2Samples = [("A", "B"), ("A", "C"), ("B", "C")] := by
  have hpairs := derivedEdgeCodePairs_eq_allPairs ld
  have hnodup := jsSetDedup_nodup (ld.map (fun d => d.source))
  refine ⟨rfl, ?_, ?_, ?_, ?_, by decide⟩
  · have hlen : (derivedEdges ld).length = (derivedEdgeCodePairs ld).length :=
      (List.length_map _ _).symm
    rw [hlen, hpairs]
    have := length_allPairs (jsSetDedup (ld.map (fun d => d.source)))
    omega
  · rw [hpairs]
    exact nodup_allPairs hnodup
  · intro x y hxy
    rw [hpairs] at hxy ⊢
    exact ⟨ne_of_mem_allPairs hnodup hxy, rev_not_mem_allPairs hnodup hxy⟩
  · intro x y hx hy hne
    rw [hpairs]
    exact pair_mem_allPairs ((mem_jsSetDedup _ x).2 hx) ((mem_jsSetDedup _ y).2 hy) hne

/-- Witness for C2: at the concrete three-sample input, the implications
of the theorem are discharged — the derived edge A-B exists (or its
reverse would), and the reversed pair B-A is not emitted. -/
theorem pairwise_edge_synthesis_witness :
    (("A", "B") ∈ derivedEdgeCodePairs c2Samples
      ∨ ("B", "A") ∈ derivedEdgeCodePairs c2Samples)
    ∧ ("B", "A") ∉ derivedEdgeCodePairs c2Samples := by
  have h := pairwise_edge_synthesis_complete_nodup c2Samples
  exact ⟨h.2.2.2.2.1 "A" "B" (by decide) (by decide) (by decide),
    (h.2.2.2.1 "A" "B" (by decide)).2⟩

/-- **C3.** Every derived region-pair edge built from hub samples `A`
(first region) and `B` (second region) has latency the arithmetic mean of
the two hub latencies, timestamp the maximum of the two, packet loss and
jitter the means of the two sides with a missing value treated as `0`,
and its quality band carried unchanged from side `A` (not recomputed from
the averaged latency). -/
theorem derived_edge_field_semantics (ld : List LatencyData) (a b : String)
    (A B : LatencyData)
    (hA : ld.find? (fun d => d.source == a) = some A)
    (hB : ld.find? (fun d => d.source == b) = some B) :
    ∃ e, mkPairEdge ld a b = some e
      ∧ e.latency = (A.latency + B.latency) / 2
      ∧ e.timestamp = max A.timestamp B.timestamp
      ∧ e.packetLoss = some ((jsOrZero A.packetLoss + jsOrZero B.packetLoss) / 2)
      ∧ e.jitter = some ((jsOrZero A.jitter + jsOrZero B.jitter) / 2)
      ∧ e.quality = A.quality :=
  ⟨_, mkPairEdge_eq hA hB, rfl, rfl, rfl, rfl, rfl⟩

/-- Two concrete hub samples for the C3 witness: US with latency 30 and a
missing jitter, GB with latency 80 and a missing packet loss. -/
def c3Samples : List LatencyData :=
  [⟨"cf-latency-US", "US", "Cloudflare", 30, 100, .excellent, some 1, none⟩,
   ⟨"cf-latency-GB", "GB", "Cloudflare", 80, 200, .good, none, some 2⟩]

/-- Witness for C3: the US-GB edge of the concrete samples has latency
`(30+80)/2 = 55`, timestamp `max 100 200 = 200`, packet loss
`(1+0)/2 = 1/2`, jitter `(0+2)/2 = 1`, and quality carried from the US
side (`excellent`, although the averaged latency 55 would give `good`
under the strict thresholds). -/
theorem derived_edge_field_semantics_witness :
    ∃ e, mkPairEdge c3Samples "US" "GB" = some e
      ∧ e.latency = 55
      ∧ e.timestamp = 200
      ∧ e.packetLoss = some (1 / 2)
      ∧ e.jitter = some 1
      ∧ e.quality = Quality.excellent
      ∧ strictQualityBand 55 = Quality.good := by
  rcases derived_edge_field_semantics c3Samples "US" "GB"
      ⟨"cf-latency-US", "US", "Cloudflare", 30, 100, .excellent, some 1, none⟩
      ⟨"cf-latency-GB", "GB", "Cloudflare", 80, 200, .good, none, some 2⟩
      rfl rfl with ⟨e, he, h1, h2, h3, h4, h5⟩
  refine ⟨e, he, ?_, ?_, ?_, ?_, h5, by decide⟩
  · rw [h1]; norm_num
  · rw [h2]; decide
  · rw [h3]; norm_num [jsOrZero]
  · rw [h4]; norm_num [jsOrZero]

/-! ## C1 / C9: quality band derivation in the realtime fetch -/

/-- A realtime response set where every location reports `latencyIdle`
exactly 50. -/
def c1Responses : String → Except String RadarSummary :=
  fun _ => .ok ⟨some 50, some 0, some 0⟩

/-- Counterexample for C1: at a parsed `latencyIdle` of exactly 50 the
emitted sample has `latencyMs = 50` but band `good`, while the claim's
inclusive step function (`latency ≤ 50 → excellent`) demands `excellent`:
the code compares with strict `<`, not `≤`. -/
theorem radar_quality_band_boundary_counterexample :
    ((fetchAllRadarLatencyData c1Responses 0).map
        (fun s => (s.latency, s.quality))).head? = some (50, Quality.good)
    ∧ specQualityBand 50 = Quality.excellent :=
  ⟨by decide, by decide⟩

/-- **C1 (amended).** For every successfully fetched realtime record whose
`latencyIdle` parses to a number `v`, the emitted sample has
`latencyMs = v` and its quality band is the step function of `v` with
strict thresholds (`<50 → excellent, <100 → good, <200 → fair,
else poor`). -/
theorem radar_quality_band_strict_thresholds
    (responses : String → Except String RadarSummary) (now : Int)
    (loc : Location) (hloc : loc ∈ LOCATIONS)
    (data : RadarSummary) (hr : responses loc.code = .ok data)
    (v : ℚ) (hv : data.latencyIdle = some v) :
    ∃ s ∈ fetchAllRadarLatencyData responses now,
      s.source = loc.code ∧ s.latency = v ∧ s.quality = strictQualityBand v := by
  have hcf : (loc.code = "Cloudflare") = False := by
    fin_cases hloc <;> simp [LOCATIONS]
  refine ⟨mkRealtimeSample loc.code now data,
    List.mem_filterMap.2 ⟨loc, hloc, ?_⟩, rfl, ?_, ?_⟩
  · rw [if_neg (hcf ▸ not_false), hr]
  · simp [mkRealtimeSample, hv, jsOrZero]
  · simp only [mkRealtimeSample, strictQualityBand, hv, jsLt]
    by_cases h50 : v < 50 <;> by_cases h100 : v < 100 <;> by_cases h200 : v < 200 <;>
      simp [h50, h100, h200]

/-- A realtime response set where every location reports `latencyIdle` 30. -/
def c1OkResponses : String → Except String RadarSummary :=
  fun _ => .ok ⟨some 30, some 0, some 0⟩

/-- Witness for C1 (amended): location US with `latencyIdle` 30 emits a
sample with latency 30 and the strict-threshold band of 30. -/
theorem radar_quality_band_strict_thresholds_witness :
    ∃ s ∈ fetchAllRadarLatencyData c1OkResponses 7,
      s.source = "US" ∧ s.latency = 30 ∧ s.quality = strictQualityBand 30 :=
  radar_quality_band_strict_thresholds c1OkResponses 7
    ⟨"US", "United States"⟩ (by decide) ⟨some 30, some 0, some 0⟩ rfl 30 rfl

/-- A realtime response set whose `latencyIdle` is non-numeric
(`parseFloat` gives `NaN`, modelled as `none`). -/
def c9Responses : String → Except String RadarSummary :=
  fun _ => .ok ⟨none, some 0, some 0⟩

/-- A realtime response set whose `latencyIdle` parses to `0`. -/
def c9ZeroResponses : String → Except String RadarSummary :=
  fun _ => .ok ⟨some 0, some 0, some 0⟩

/-- **C9.** A successful realtime response with a non-numeric
`latencyIdle` emits a sample with `latencyMs = 0` (the `|| 0` guard) but
band `poor` (NaN falls through every `<` comparison), while a response
parsing to `0` also emits `latencyMs = 0` with band `excellent`: the band
is computed from the raw parsed value and is not a function of the emitted
`latencyMs`. -/
theorem nan_latency_zero_poor_band :
    ((fetchAllRadarLatencyData c9Responses 0).map
        (fun s => (s.latency, s.quality))).head? = some (0, Quality.poor)
    ∧ ((fetchAllRadarLatencyData c9ZeroResponses 0).map
        (fun s => (s.latency, s.quality))).head? = some (0, Quality.excellent) :=
  ⟨by decide, by decide⟩

/-! ## C4: historical series parsing -/

/-- One element of the legacy array-of-points `serie_0` shape; `median` is
`Option ℚ` because the `|| 0` guard tolerates a missing value. -/
structure LegacyPoint where
  timestamp : String
  median : Option ℚ
deriving DecidableEq, Repr

/-- The `serie_0` payload of a historical response: the legacy array
shape, the newer parallel-arrays shape (whose elements may be
null/undefined, modelled as `none`), or any other value. -/
inductive SerieShape where
  | legacy (items : List LegacyPoint)
  | parallel (timestamps : List (Option String)) (p50 : List (Option ℚ))
  | other

/-- JS truthiness of a string-array element: null/undefined and the empty
string are falsy. -/
def jsTruthyStr : Option String → Bool
  | none => false
  | some s => !(s == "")

/-- The parallel-arrays loop of `fetchRadarHistoricalForLocation`
(lines 420–434): for `i` up to `timestamps.length`, emit a point when
`timestamps[i]` is truthy and `p50[i]` is neither undefined nor null.
Out-of-range indexing yields `undefined`, hence the `.join` of `get?`. -/
def parseParallelSeries (getTime : String → Int) (locationCode : String)
    (timestamps : List (Option String)) (p50 : List (Option ℚ)) :
    List HistoricalLatencyData :=
  (List.range timestamps.length).filterMap (fun i =>
    match (timestamps.get? i).join, (p50.get? i).join with
    | some s, some m =>
      if s = "" then none
      else some ⟨getTime s, m, locationCode, "Cloudflare"⟩
    | _, _ => none)

/-- `fetchRadarHistoricalForLocation` after the fetch/shape checks: map
the legacy shape item-wise, parse the parallel shape, and fail on any
other shape (and propagate a failed or malformed response). -/
def fetchRadarHistoricalForLocation (getTime : String → Int) (locationCode : String)
    (response : Except String SerieShape) : Except String (List HistoricalLatencyData) :=
  match response with
  | .error e => .error e
  | .ok (.legacy items) =>
    .ok (items.map (fun item =>
      ⟨getTime item.timestamp, jsOrZero item.median, locationCode, "Cloudflare"⟩))
  | .ok (.parallel timestamps p50) =>
    .ok (parseParallelSeries getTime locationCode timestamps p50)
  | .ok .other => .error "Malformed Radar historical API response: unexpected format"

/-- `fetchRadarHistoricalData`: per-location historical fetch over
`LOCATIONS`, a failed location contributing `[]`, flattened. -/
def fetchRadarHistoricalData (getTime : String → Int)
    (responses : String → Except String SerieShape) : List HistoricalLatencyData :=
  (LOCATIONS.map (fun loc =>
    match fetchRadarHistoricalForLocation getTime loc.code (responses loc.code) with
    | .ok pts => pts
    | .error _ => [])).flatten

/-- The claim's count: index positions where both `timestamps[i]` and
`p50[i]` are present (non-null and non-undefined), written from the
claim's words. -/
def bothPresentCount (timestamps : List (Option String)) (p50 : List (Option ℚ)) : Nat :=
  ((List.range timestamps.length).filter (fun i =>
    ((timestamps.get? i).join).isSome && ((p50.get? i).join).isSome)).length

/-- The code's actual count: positions where `timestamps[i]` is truthy
(present and non-empty) and `p50[i]` is present. -/
def truthyPresentCount (timestamps : List (Option String)) (p50 : List (Option ℚ)) : Nat :=
  ((List.range timestamps.length).filter (fun i =>
    jsTruthyStr ((timestamps.get? i).join) && ((p50.get? i).join).isSome)).length

theorem length_filterMap_eq_count {α β : Type} (f : α → Option β) (l : List α) :
    (l.filterMap f).length = (l.filter (fun x => (f x).isSome)).length := by
  induction l with
  | nil => rfl
  | cons a l ih =>
    cases h : f a <;> simp [List.filterMap_cons, List.filter_cons, h, ih]

/-- Counterexample for C4: with `timestamps = [""]` and `p50 = [10]` both
positions are present (non-null, non-undefined) so the claim demands one
emitted point, but the code's truthiness test on the timestamp skips the
empty string and emits none. -/
theorem parallel_series_falsy_timestamp_counterexample :
    bothPresentCount [some ""] [some 10] = 1
    ∧ parseParallelSeries (fun _ => 0) "US" [some ""] [some 10] = [] :=
  ⟨by decide, by decide⟩

/-- **C4 (amended).** For every parallel-arrays response, the number of
emitted points equals the number of index positions where `timestamps[i]`
is truthy (present and non-empty) and `p50[i]` is present, and every
emitted point is `(getTime timestamps[i], p50[i])` for such a position. -/
theorem parallel_series_emission_count (getTime : String → Int) (code : String)
    (timestamps : List (Option String)) (p50 : List (Option ℚ)) :
    (parseParallelSeries getTime code timestamps p50).length
      = truthyPresentCount timestamps p50
    ∧ ∀ pt ∈ parseParallelSeries getTime code timestamps p50,
        ∃ i s, ∃ m : ℚ, (timestamps.get? i).join = some s
          ∧ (p50.get? i).join = some m
          ∧ pt = ⟨getTime s, m, code, "Cloudflare"⟩ := by
  constructor
  · rw [parseParallelSeries, truthyPresentCount, length_filterMap_eq_count]
    congr 1
    apply List.filter_congr
    intro i _
    cases hts : (timestamps.get? i).join with
    | none => simp [jsTruthyStr]
    | some s =>
      cases hm : (p50.get? i).join with
      | none => simp [jsTruthyStr]
      | some m =>
        by_cases hs : s = "" <;> simp [jsTruthyStr, hs]
  · intro pt hpt
    rcases List.mem_filterMap.1 hpt with ⟨i, _, hi⟩
    refine ⟨i, ?_⟩
    cases hts : (timestamps.get? i).join with
    | none => rw [hts] at hi; exact absurd hi (by simp)
    | some s =>
      cases hm : (p50.get? i).join with
      | none => rw [hts, hm] at hi; exact absurd hi (by simp)
      | some m =>
        rw [hts, hm] at hi
        by_cases hs : s = ""
        · simp [hs] at hi
        · simp only [hs, if_false, Option.some.injEq, reduceIte] at hi
          exact ⟨s, m, rfl, rfl, hi.symm⟩

/-- Concrete parallel-arrays input for the C4 witness. -/
def c4Ts : List (Option String) := [some "a", none, some ""]

/-- Concrete `p50` array for the C4 witness. -/
def c4P50 : List (Option ℚ) := [some 1, some 2, some 3]

/-- Witness for C4 (amended): on the concrete arrays exactly one position
is truthy-present, and the single emitted point maps position 0 through
`getTime = String.length`. -/
theorem parallel_series_emission_count_witness :
    (parseParallelSeries (fun s => (s.length : Int)) "US" c4Ts c4P50).length
      = truthyPresentCount c4Ts c4P50
    ∧ ∃ i s, ∃ m : ℚ, (c4Ts.get? i).join = some s
        ∧ (c4P50.get? i).join = some m
        ∧ (⟨1, 1, "US", "Cloudflare"⟩ : HistoricalLatencyData)
            = ⟨(s.length : Int), m, "US", "Cloudflare"⟩ := by
  have h := parallel_series_emission_count (fun s => (s.length : Int)) "US" c4Ts c4P50
  exact ⟨h.1, h.2 ⟨1, 1, "US", "Cloudflare"⟩ (by decide)⟩

/-! ## C5: region metadata resolution -/

/-- The metadata record returned by `fetchRegionMetadata`. -/
structure RegionMetadata where
  code : String
  name : String
  latitude : ℚ
  longitude : ℚ
deriving DecidableEq, Repr

/-- The static fallback coordinate table of `fetchRegionMetadata`
(lines 496–506), in source order: (code, latitude, longitude, name). -/
def fallbackCoords : List (String × ℚ × ℚ × String) :=
  [("US", 39.8283, -98.5795, "United States"),
   ("DE", 51.1657, 10.4515, "Germany"),
   ("GB", 55.3781, -3.436, "United Kingdom"),
   ("SG", 1.3521, 103.8198, "Singapore"),
   ("JP", 36.2048, 138.2529, "Japan"),
   ("IN", 20.5937, 78.9629, "India")]

/-- `regionCode in fallbackCoords` followed by the destructuring read. -/
def lookupFallback (code : String) : Option (ℚ × ℚ × String) :=
  (fallbackCoords.find? (fun p => p.1 == code)).map (fun p => p.2)

/-- The hardcoded hub metadata of the `regionCode === "Cloudflare"`
special case (lines 466–473). -/
def hubMeta : RegionMetadata := ⟨"Cloudflare", "Cloudflare", 37.7749, -122.4194⟩

/-- `fetchRegionMetadata`: special-case the hub without touching the
remote; otherwise use the remote metadata response; on any remote failure
fall back to the static table; if the code is absent there too, rethrow
the caught error. -/
def fetchRegionMetadata (remote : String → Except String RegionMetadata)
    (regionCode : String) : Except String RegionMetadata :=
  if regionCode = "Cloudflare" then .ok hubMeta
  else
    match remote regionCode with
    | .ok loc => .ok loc
    | .error e =>
      match lookupFallback regionCode with
      | some (lat, lng, nm) => .ok ⟨regionCode, nm, lat, lng⟩
      | none => .error e

/-- **C5.** The hub identifier resolves to the hardcoded coordinates for
every remote (no remote dependence); when the remote call fails, a code
present in the six-entry static fallback table resolves to the table's
name and coordinates; a code absent from both propagates the remote's
error to the caller. -/
theorem region_metadata_fallback_resolution :
    (∀ remote, fetchRegionMetadata remote "Cloudflare" = .ok hubMeta)
    ∧ (∀ (e : String) (code : String) (lat lng : ℚ) (nm : String),
        lookupFallback code = some (lat, lng, nm) →
        fetchRegionMetadata (fun _ => .error e) code = .ok ⟨code, nm, lat, lng⟩)
    ∧ (∀ (e : String) (code : String), code ≠ "Cloudflare" →
        lookupFallback code = none →
        fetchRegionMetadata (fun _ => .error e) code = .error e)
    ∧ fallbackCoords.length = 6 := by
  refine ⟨fun remote => rfl, ?_, ?_, rfl⟩
  · intro e code lat lng nm hl
    by_cases hc : code = "Cloudflare"
    · subst hc; simp [lookupFallback, fallbackCoords] at hl
    · simp [fetchRegionMetadata, hc, hl]
  · intro e code hc hl
    simp [fetchRegionMetadata, hc, hl]

/-- Witness for C5: with a failing remote, "DE" resolves to the fallback
table's Germany entry, while "FR" (absent from the table) propagates the
remote's error. -/
theorem region_metadata_fallback_resolution_witness :
    fetchRegionMetadata (fun _ => .error "boom") "DE"
        = .ok ⟨"DE", "Germany", 51.1657, 10.4515⟩
    ∧ fetchRegionMetadata (fun _ => .error "boom") "FR" = .error "boom" := by
  have h := region_metadata_fallback_resolution
  exact ⟨h.2.1 "boom" "DE" 51.1657 10.4515 "Germany" rfl,
    h.2.2.1 "boom" "FR" (by decide) rfl⟩

/-! ## Orchestration: `synthesizeRegionExchanges` and `fetchLatencyData` -/

/-- The `status` union of `ExchangeLocation`. -/
inductive ExchangeStatus where
  | online
  | offline
  | maintenance
deriving DecidableEq, Repr

/-- `interface ExchangeLocation` from `src/types`, flattened coordinates.
`cloudProvider` is `Option String` because `REGION_PROVIDER_MAP[code]` is
`undefined` for codes off the map. -/
structure ExchangeLocation where
  id : String
  name : String
  displayName : String
  latitude : ℚ
  longitude : ℚ
  altitude : ℚ
  cloudProvider : Option String
  region : String
  regionCode : String
  serverCount : Nat
  status : ExchangeStatus
deriving DecidableEq, Repr

/-- The `REGION_PROVIDER_MAP` constant (lines 516–524). -/
def REGION_PROVIDER_MAP : List (String × String) :=
  [("US", "AWS"), ("DE", "GCP"), ("GB", "Azure"),
   ("SG", "AWS"), ("JP", "GCP"), ("IN", "Azure")]

/-- `synthesizeRegionExchanges` (lines 527–570): over the deduplicated
source and target codes of the sample list, skip codes already naming a
known exchange, resolve metadata via `fetchRegionMetadata` (a code whose
resolution fails is skipped with a logged warning), and emit an
exchange-like node whose `status` is the fixed `"online"` placeholder.
The static `EXCHANGE_LOCATIONS` constant lives in a module outside the
sources in scope and is passed in as `exchangeLocations`. -/
def synthesizeRegionExchanges (exchangeLocations : List ExchangeLocation)
    (remote : String → Except String RegionMetadata)
    (latencyData : List LatencyData) : List ExchangeLocation :=
  (jsSetDedup (latencyData.flatMap (fun d => [d.source, d.target]))).filterMap
    (fun code =>
      if exchangeLocations.any (fun e => e.id == code) then none
      else
        match fetchRegionMetadata remote code with
        | .ok meta =>
          some
            { id := code
              name := code
              displayName := "Region: " ++ meta.name
              latitude := meta.latitude
              longitude := meta.longitude
              altitude := 0
              cloudProvider :=
                (REGION_PROVIDER_MAP.find? (fun p => p.1 == code)).map (fun p => p.2)
              region := meta.name
              regionCode := code
              serverCount := 1
              status := .online }
        | .error _ => none)

/-- The state bundle of the `useLatencyData` hook. -/
structure HookState where
  latencyData : List LatencyData
  historicalData : List HistoricalLatencyData
  metrics : MetricsData
  isLoading : Bool
  error : Option String
  lastUpdated : Int
deriving Repr

/-- The all-zero metrics installed by the error branch (also the
`useState` initial value). -/
def zeroMetrics : MetricsData := ⟨0, 0, 0, 0, 0⟩

/-- The initial hook state (`useState` defaults). -/
def initialHookState : HookState := ⟨[], [], zeroMetrics, true, none, 0⟩

/-- `err instanceof Error ? err.message : "Failed to fetch data"`; the
thrown value is `some message` for an `Error`, `none` otherwise. -/
def errorMessage : Option String → String
  | some m => m
  | none => "Failed to fetch data"

/-- One run of `fetchLatencyData` (lines 633–685) as a state transformer.
`crash = some err` models an unhandled exception escaping the try-block
(`err` as in `errorMessage`); `crash = none` is the normal path, in which
every awaited sub-operation settles as modelled by the response
functions.  The `finally` clears `isLoading` on both paths. -/
def runRefreshCycle (exchangeLocations : List ExchangeLocation)
    (responses : String → Except String RadarSummary)
    (histResponses : String → Except String SerieShape)
    (remote : String → Except String RegionMetadata)
    (getTime : String → Int) (now : Int)
    (crash : Option (Option String)) (prev : HookState) : HookState :=
  match crash with
  | some err =>
    { latencyData := []
      historicalData := []
      metrics := zeroMetrics
      isLoading := false
      error := some (errorMessage err)
      lastUpdated := prev.lastUpdated }
  | none =>
    let latency := fetchAllRadarLatencyData responses now
    let historical := fetchRadarHistoricalData getTime histResponses
    let synthesizedLatencyData := synthesizeRegionConnections latency
    let regionExchanges :=
      synthesizeRegionExchanges exchangeLocations remote synthesizedLatencyData
    let allExchanges := exchangeLocations ++ regionExchanges
    let onlineCount := (allExchanges.filter (fun e => e.status == .online)).length
    let uptime : ℚ :=
      if allExchanges.length > 0 then
        ((onlineCount : ℚ) / (allExchanges.length : ℚ)) * 100
      else 0
    let avgLatency : ℚ :=
      if synthesizedLatencyData.length ≠ 0 then
        (synthesizedLatencyData.foldl (fun sum d => sum + d.latency) 0)
          / (synthesizedLatencyData.length : ℚ)
      else 0
    { latencyData := synthesizedLatencyData
      historicalData := historical
      metrics :=
        { totalExchanges := synthesizedLatencyData.length
          activeConnections := synthesizedLatencyData.length
          averageLatency := avgLatency
          uptime := uptime
          lastUpdated := now }
      isLoading := false
      error := none
      lastUpdated := now }

/-- **C6.** A refresh cycle that ends in the error state sets the exposed
error message and clears all derived data: the sample and historical
lists become empty and every metrics field becomes zero, regardless of
the previous (stale) state. -/
theorem refresh_error_clears_state (exchangeLocations : List ExchangeLocation)
    (responses : String → Except String RadarSummary)
    (histResponses : String → Except String SerieShape)
    (remote : String → Except String RegionMetadata)
    (getTime : String → Int) (now : Int)
    (err : Option String) (prev : HookState) :
    (runRefreshCycle exchangeLocations responses histResponses remote getTime now
        (some err) prev).error = some (errorMessage err)
    ∧ (runRefreshCycle exchangeLocations responses histResponses remote getTime now
        (some err) prev).latencyData = []
    ∧ (runRefreshCycle exchangeLocations responses histResponses remote getTime now
        (some err) prev).historicalData = []
    ∧ (runRefreshCycle exchangeLocations responses histResponses remote getTime now
        (some err) prev).metrics
        = { totalExchanges := 0, activeConnections := 0, averageLatency := 0,
            uptime := 0, lastUpdated := 0 } :=
  ⟨rfl, rfl, rfl, rfl⟩

/-- **C10.** In the state exposed after every refresh cycle — ready or
error — `totalExchanges` equals `activeConnections`, and both equal the
length of the exposed (synthesized) latency sample list. -/
theorem metrics_counts_equal_sample_length (exchangeLocations : List ExchangeLocation)
    (responses : String → Except String RadarSummary)
    (histResponses : String → Except String SerieShape)
    (remote : String → Except String RegionMetadata)
    (getTime : String → Int) (now : Int)
    (crash : Option (Option String)) (prev : HookState) :
    (runRefreshCycle exchangeLocations responses histResponses remote getTime now
        crash prev).metrics.totalExchanges
      = (runRefreshCycle exchangeLocations responses histResponses remote getTime now
        crash prev).metrics.activeConnections
    ∧ (runRefreshCycle exchangeLocations responses histResponses remote getTime now
        crash prev).metrics.totalExchanges
      = (runRefreshCycle exchangeLocations responses histResponses remote getTime now
        crash prev).latencyData.length := by
  cases crash <;> exact ⟨rfl, rfl⟩

/-! ## C7: per-location failure isolation -/

theorem except_isOk_ok {ε α : Type} (a : α) : (Except.ok a : Except ε α).isOk = true := rfl

theorem except_isOk_error {ε α : Type} (e : ε) : (Except.error e : Except ε α).isOk = false := rfl

theorem mkRealtimeSample_source (code : String) (now : Int) (data : RadarSummary) :
    (mkRealtimeSample code now data).source = code := rfl

theorem filterMap_sources (responses : String → Except String RadarSummary) (now : Int) :
    ∀ (l : List Location), (∀ loc ∈ l, loc.code ≠ "Cloudflare") →
      (l.filterMap (fun loc =>
        if loc.code = "Cloudflare" then none
        else
          match responses loc.code with
          | .ok data => some (mkRealtimeSample loc.code now data)
          | .error _ => none)).map (fun s => s.source)
        = (l.filter (fun loc => (responses loc.code).isOk)).map (fun loc => loc.code)
  | [], _ => rfl
  | loc :: l, h => by
    have hcf : ¬loc.code = "Cloudflare" := h loc (List.mem_cons_self _ _)
    have ih := filterMap_sources responses now l
      (fun x hx => h x (List.mem_cons_of_mem _ hx))
    cases hr : responses loc.code with
    | ok data =>
      simp [List.filterMap_cons, List.filter_cons, hcf, hr, ih, except_isOk_ok,
        mkRealtimeSample_source]
    | error e =>
      simp [List.filterMap_cons, List.filter_cons, hcf, hr, ih, except_isOk_error]

theorem mem_fetchAll {responses : String → Except String RadarSummary} {now : Int}
    {s : LatencyData} :
    s ∈ fetchAllRadarLatencyData responses now ↔
      ∃ loc ∈ LOCATIONS, ∃ data, responses loc.code = .ok data
        ∧ s = mkRealtimeSample loc.code now data := by
  constructor
  · intro hs
    rcases List.mem_filterMap.1 hs with ⟨loc, hloc, hf⟩
    by_cases hcf : loc.code = "Cloudflare"
    · rw [if_pos hcf] at hf
      exact absurd hf (by simp)
    · rw [if_neg hcf] at hf
      cases hr : responses loc.code with
      | ok data =>
        rw [hr] at hf
        simp only [Option.some.injEq] at hf
        exact ⟨loc, hloc, data, hr, hf.symm⟩
      | error e =>
        rw [hr] at hf
        exact absurd hf (by simp)
  · rintro ⟨loc, hloc, data, hr, rfl⟩
    have hcf : (loc.code = "Cloudflare") = False := by
      fin_cases hloc <;> simp [LOCATIONS]
    exact List.mem_filterMap.2 ⟨loc, hloc, by rw [if_neg (hcf ▸ not_false), hr]⟩

theorem historical_points_source {getTime : String → Int} {code : String}
    {response : Except String SerieShape} {pts : List HistoricalLatencyData}
    (h : fetchRadarHistoricalForLocation getTime code response = .ok pts) :
    ∀ pt ∈ pts, pt.source = code := by
  intro pt hpt
  cases response with
  | error e => simp [fetchRadarHistoricalForLocation] at h
  | ok serie =>
    cases serie with
    | legacy items =>
      simp only [fetchRadarHistoricalForLocation, Except.ok.injEq] at h
      subst h
      rcases List.mem_map.1 hpt with ⟨item, _, rfl⟩
      rfl
    | parallel timestamps p50 =>
      simp only [fetchRadarHistoricalForLocation, Except.ok.injEq] at h
      subst h
      rcases (parallel_series_emission_count getTime code timestamps p50).2 pt hpt
        with ⟨i, s, m, _, _, hpt'⟩
      rw [hpt']
    | other => simp [fetchRadarHistoricalForLocation] at h

theorem mem_fetchHistorical {getTime : String → Int}
    {histResponses : String → Except String SerieShape} {pt : HistoricalLatencyData}
    (hpt : pt ∈ fetchRadarHistoricalData getTime histResponses) :
    ∃ loc ∈ LOCATIONS, pt.source = loc.code
      ∧ (fetchRadarHistoricalForLocation getTime loc.code
          (histResponses loc.code)).isOk = true := by
  rcases List.mem_flatten.1 hpt with ⟨sub, hsub, hmem⟩
  rcases List.mem_map.1 hsub with ⟨loc, hloc, rfl⟩
  cases hr : fetchRadarHistoricalForLocation getTime loc.code (histResponses loc.code) with
  | ok pts =>
    rw [hr] at hmem
    simp only [] at hmem
    exact ⟨loc, hloc, historical_points_source hr pt hmem,
      by rw [hr, except_isOk_ok]⟩
  | error e =>
    rw [hr] at hmem
    simp at hmem

/-- **C7.** No per-location failure aborts the batch: the realtime batch
emits, in location order, exactly the samples of the locations whose
fetch succeeded; a location whose realtime fetch fails contributes no
sample, and a location whose historical fetch or parse fails contributes
no historical point. -/
theorem per_location_failure_isolation
    (responses : String → Except String RadarSummary)
    (histResponses : String → Except String SerieShape)
    (getTime : String → Int) (now : Int) :
    ((fetchAllRadarLatencyData responses now).map (fun s => s.source)
      = (LOCATIONS.filter (fun loc => (responses loc.code).isOk)).map
          (fun loc => loc.code))
    ∧ (∀ loc ∈ LOCATIONS, (responses loc.code).isOk = false →
        ∀ s ∈ fetchAllRadarLatencyData responses now, s.source ≠ loc.code)
    ∧ (∀ loc ∈ LOCATIONS,
        (fetchRadarHistoricalForLocation getTime loc.code
            (histResponses loc.code)).isOk = false →
        ∀ pt ∈ fetchRadarHistoricalData getTime histResponses,
          pt.source ≠ loc.code) := by
  have hnodup : (LOCATIONS.map (fun loc => loc.code)).Nodup := by decide
  refine ⟨filterMap_sources responses now LOCATIONS (by decide), ?_, ?_⟩
  · intro loc hloc hfail s hs hsrc
    rcases mem_fetchAll.1 hs with ⟨loc', hloc', data, hr, rfl⟩
    have hcode : loc'.code = loc.code := hsrc
    have hloc'' : loc' = loc := List.inj_on_of_nodup_map hnodup hloc' hloc hcode
    rw [hloc''] at hr
    rw [hr, except_isOk_ok] at hfail
    exact Bool.noConfusion hfail
  · intro loc hloc hfail pt hpt hsrc
    rcases mem_fetchHistorical hpt with ⟨loc', hloc', hsrc', hok⟩
    have hcode : loc'.code = loc.code := hsrc'.symm.trans hsrc
    have hloc'' : loc' = loc := List.inj_on_of_nodup_map hnodup hloc' hloc hcode
    rw [hloc''] at hok
    rw [hfail] at hok
    exact Bool.noConfusion hok

/-- Realtime responses for the C7 witness: DE fails, all others succeed. -/
def c7Responses : String → Except String RadarSummary :=
  fun code =>
    if code = "DE" then .error "Radar API error for DE"
    else .ok ⟨some 10, some 0, some 0⟩

/-- Historical responses for the C7 witness: DE fails, all others return
a one-point parallel series. -/
def c7HistResponses : String → Except String SerieShape :=
  fun code =>
    if code = "DE" then .error "Radar historical API error for DE"
    else .ok (.parallel [some "t"] [some 5])

/-- Witness for C7: with DE failing and all other locations succeeding,
the batch still yields the five other locations' samples in order and DE
contributes neither a sample nor a historical point. -/
theorem per_location_failure_isolation_witness :
    (fetchAllRadarLatencyData c7Responses 0).map (fun s => s.source)
      = ["US", "GB", "SG", "JP", "IN"]
    ∧ "DE" ∉ (fetchAllRadarLatencyData c7Responses 0).map (fun s => s.source)
    ∧ "DE" ∉ (fetchRadarHistoricalData (fun s => (s.length : Int))
        c7HistResponses).map (fun pt => pt.source) := by
  have h := per_location_failure_isolation c7Responses c7HistResponses
    (fun s => (s.length : Int)) 0
  refine ⟨h.1.trans (by decide), ?_, ?_⟩
  · intro hmem
    rcases List.mem_map.1 hmem with ⟨s, hs, hsrc⟩
    exact h.2.1 ⟨"DE", "Germany"⟩ (by decide) (by decide) s hs hsrc
  · intro hmem
    rcases List.mem_map.1 hmem with ⟨pt, hpt, hsrc⟩
    exact h.2.2 ⟨"DE", "Germany"⟩ (by decide) (by decide) pt hpt hsrc

/-! ## C8: chronological ordering of the historical collection -/

/-- Chronologically ascending by timestamp: every adjacent pair is
non-decreasing. -/
def sortedByTimestamp (l : List HistoricalLatencyData) : Prop :=
  List.Chain' (fun a b => a.timestamp ≤ b.timestamp) l

instance (l : List HistoricalLatencyData) : Decidable (sortedByTimestamp l) :=
  inferInstanceAs (Decidable (List.Chain'
    (fun a b : HistoricalLatencyData => a.timestamp ≤ b.timestamp) l))

/-- Historical responses exposing the missing global sort: US's single
point has a larger timestamp than GB's (with `getTime = String.length`),
and US precedes GB in `LOCATIONS`. -/
def c8HistResponses : String → Except String SerieShape :=
  fun code =>
    if code = "US" then .ok (.parallel [some "aa"] [some 1])
    else if code = "GB" then .ok (.parallel [some "a"] [some 2])
    else .error "Radar historical API error"

/-- Counterexample for C8: the historical collection exposed by a
successful refresh cycle is the per-location concatenation with no global
sort, so with US's series later than GB's the exposed list is not
chronologically ascending. -/
theorem exposed_historical_unsorted_counterexample :
    ¬ sortedByTimestamp
      (runRefreshCycle [] c9ZeroResponses c8HistResponses
        (fun _ => Except.error "metadata down") (fun s => (s.length : Int)) 0
        none initialHookState).historicalData := by
  intro h
  have hd : (runRefreshCycle [] c9ZeroResponses c8HistResponses
      (fun _ => Except.error "metadata down") (fun s => (s.length : Int)) 0
      none initialHookState).historicalData
      = [⟨2, 1, "US", "Cloudflare"⟩, ⟨1, 2, "GB", "Cloudflare"⟩] := by decide
  unfold sortedByTimestamp at h
  rw [hd] at h
  exact absurd (List.chain'_cons.1 h).1 (by decide)

/-- Insertion into a timestamp-sorted list; building block of the model
of the ascending comparison sort `.sort((a, b) => a.timestamp - b.timestamp)`
in `generateHistoricalData`. -/
def insertByTs (a : HistoricalLatencyData) :
    List HistoricalLatencyData → List HistoricalLatencyData
  | [] => [a]
  | b :: l => if a.timestamp ≤ b.timestamp then a :: b :: l else b :: insertByTs a l

/-- Ascending sort by timestamp. -/
def sortByTimestamp (l : List HistoricalLatencyData) : List HistoricalLatencyData :=
  l.foldr insertByTs []

theorem mem_insertByTs {a c : HistoricalLatencyData} :
    ∀ {l : List HistoricalLatencyData}, c ∈ insertByTs a l ↔ c = a ∨ c ∈ l
  | [] => by simp [insertByTs]
  | b :: l => by
    rw [insertByTs]
    by_cases h : a.timestamp ≤ b.timestamp
    · rw [if_pos h]
      simp only [List.mem_cons]
    · rw [if_neg h]
      simp only [List.mem_cons, mem_insertByTs]
      tauto

theorem pairwise_insertByTs {a : HistoricalLatencyData} :
    ∀ {l : List HistoricalLatencyData},
      l.Pairwise (fun x y => x.timestamp ≤ y.timestamp) →
      (insertByTs a l).Pairwise (fun x y => x.timestamp ≤ y.timestamp)
  | [], _ => by simp [insertByTs]
  | b :: l, hp => by
    rw [insertByTs]
    rcases List.pairwise_cons.1 hp with ⟨hb, hl⟩
    by_cases h : a.timestamp ≤ b.timestamp
    · rw [if_pos h]
      refine List.pairwise_cons.2 ⟨?_, hp⟩
      intro c hc
      rcases List.mem_cons.1 hc with hcb | hc
      · exact hcb ▸ h
      · exact le_trans h (hb c hc)
    · rw [if_neg h]
      refine List.pairwise_cons.2 ⟨?_, pairwise_insertByTs hl⟩
      intro c hc
      rcases mem_insertByTs.1 hc with hca | hc
      · exact hca ▸ le_of_not_le h
      · exact hb c hc

theorem sortByTimestamp_sorted (l : List HistoricalLatencyData) :
    sortedByTimestamp (sortByTimestamp l) := by
  have key : ∀ l : List HistoricalLatencyData,
      (sortByTimestamp l).Pairwise (fun x y => x.timestamp ≤ y.timestamp) := by
    intro l
    induction l with
    | nil => simp [sortByTimestamp]
    | cons a l ih => exact pairwise_insertByTs ih
  exact (key l).chain'

/-- The fixed exchange-pair list of `generateHistoricalData`. -/
def HISTORICAL_PAIRS : List (String × String) :=
  [("binance-us-east", "binance-eu-west"), ("okx-us", "okx-europe"),
   ("bybit-us", "bybit-eu"), ("binance-asia", "okx-asia")]

/-- `generateHistoricalData` from `src/lib/mockApi.ts` (lines 95–145):
for each hard-coded pair whose two exchanges are present, one point per
day and hour (timestamp `now - (days - day)·86400000 + hour·3600000`),
then an ascending sort by timestamp.  The latency value — haversine-based
base latency plus sinusoidal daily/weekly patterns and random noise,
clamped below at 1 — depends on `Math.random` and trigonometric
functions, and is abstracted as the oracle `latAt source target day hour`
(its value does not affect ordering). -/
def generateHistoricalData (exchanges : List ExchangeLocation)
    (latAt : String → String → Nat → Nat → ℚ) (days : Nat) (now : Int) :
    List HistoricalLatencyData :=
  sortByTimestamp
    (HISTORICAL_PAIRS.flatMap (fun p =>
      if (exchanges.find? (fun e => e.id == p.1)).isSome
          && (exchanges.find? (fun e => e.id == p.2)).isSome then
        (List.range days).flatMap (fun (day : Nat) =>
          (List.range 24).map (fun (hour : Nat) =>
            ⟨now - ((days : Int) - (day : Int)) * 86400000 + (hour : Int) * 3600000,
             latAt p.1 p.2 day hour, p.1, p.2⟩))
      else []))

/-- **C8 (amended).** The mock-API historical collection
(`generateHistoricalData`, which ends in an explicit ascending sort) is
chronologically ascending for every choice of exchanges, latency oracle,
day count and clock; the radar-path collection is the plain per-location
concatenation (see the counterexample) and carries no such guarantee. -/
theorem mock_historical_sorted (exchanges : List ExchangeLocation)
    (latAt : String → String → Nat → Nat → ℚ) (days : Nat) (now : Int) :
    sortedByTimestamp (generateHistoricalData exchanges latAt days now) :=
  sortByTimestamp_sorted _
